import Mathlib

/-!
Shallow embedding of the PID tuning playground's simulation worker
(`src/sim/sim.worker.ts`).  JavaScript numbers are modelled as exact
rationals; the worker's module-level mutable variables become the fields
of `SimState`, its `step`, `resetState` and message handler become pure
state-transition functions, and the four chart buffers become lists with
the same push/shift discipline as the source.
-/

namespace SimWorker

/-- Plant selector: `'sled' | 'flywheel'` in the source. -/
inductive PlantKind where
  | sled
  | flywheel
deriving DecidableEq

/-- `SimParams` from the worker.  Optional TypeScript fields (`ki?`, `kd?`,
`plant?`, `drag?`, `inertiaJ?`, `loadTorque?`) are `Option`s; the `??`
defaults are applied at the use sites inside `step`, exactly as the source
does. -/
structure SimParams where
  dt : ℚ
  kp : ℚ
  ki : Option ℚ
  kd : Option ℚ
  setpoint : ℚ
  friction : ℚ
  plant : Option PlantKind
  drag : Option ℚ
  inertiaJ : Option ℚ
  loadTorque : Option ℚ
deriving DecidableEq

/-- The worker's module-level mutable state: parameters, run flag, plant and
controller state, hidden plant constants and the four chart buffers. -/
structure SimState where
  p : SimParams
  running : Bool
  y : ℚ
  v : ℚ
  u : ℚ
  uCmd : ℚ
  t : ℚ
  omega : ℚ
  ei : ℚ
  ePrev : ℚ
  mass : ℚ
  K : ℚ
  tBuf : List ℚ
  yBuf : List ℚ
  uBuf : List ℚ
  spBuf : List ℚ
deriving DecidableEq

/-- `const tauLag = 0.08`. -/
def tauLag : ℚ := 8 / 100

/-- `const U_DEADBAND = 0.02`. -/
def U_DEADBAND : ℚ := 2 / 100

/-- `const maxPoints = 2000`. -/
def maxPoints : ℕ := 2000

/-- `const DE_CLAMP = 1e3` (derivative clamp bound). -/
def DE_CLAMP : ℚ := 1000

/-- `const EI_MAX = 1e3` (integrator clamp bound). -/
def EI_MAX : ℚ := 1000

/-- The `1e-6` floor applied to every divisor. -/
def epsDiv : ℚ := 1 / 1000000

/-- `Math.min` on (non-NaN) numbers. -/
def qmin (a b : ℚ) : ℚ := if a ≤ b then a else b

/-- `Math.max` on (non-NaN) numbers. -/
def qmax (a b : ℚ) : ℚ := if a ≤ b then b else a

/-- `Math.abs`. -/
def qabs (a : ℚ) : ℚ := if a < 0 then -a else a

/-- `Math.max(lo, Math.min(hi, x))`. -/
def clampQ (lo hi x : ℚ) : ℚ := qmax lo (qmin hi x)

/-- `p.ki ?? 0`. -/
def kiOf (p : SimParams) : ℚ := p.ki.getD 0

/-- `p.kd ?? 0`. -/
def kdOf (p : SimParams) : ℚ := p.kd.getD 0

/-- `p.plant ?? 'sled'`. -/
def plantOf (p : SimParams) : PlantKind := p.plant.getD .sled

/-- `p.drag ?? 0.2`. -/
def dragOf (p : SimParams) : ℚ := p.drag.getD (2 / 10)

/-- `p.inertiaJ ?? 0.05`. -/
def inertiaOf (p : SimParams) : ℚ := p.inertiaJ.getD (5 / 100)

/-- `p.loadTorque ?? 0`. -/
def loadOf (p : SimParams) : ℚ := p.loadTorque.getD 0

/-- `Math.max(p.dt, 1e-6)` — the divisor of the derivative estimate. -/
def dtDivisor (p : SimParams) : ℚ := qmax p.dt epsDiv

/-- `Math.max(tauLag, 1e-6)` — the divisor of the actuator lag update. -/
def lagDivisor : ℚ := qmax tauLag epsDiv

/-- `Math.max(p.inertiaJ ?? 0.05, 1e-6)` — the flywheel inertia divisor. -/
def inertiaDivisor (p : SimParams) : ℚ := qmax (inertiaOf p) epsDiv

/-- `Math.max(mass, 1e-6)` — the sled's effective mass divisor. -/
def massDivisor (mass : ℚ) : ℚ := qmax mass epsDiv

/-- `const e = p.setpoint - y`. -/
def eOf (s : SimState) : ℚ := s.p.setpoint - s.y

/-- `const de = (e - ePrev) / Math.max(p.dt, 1e-6)`. -/
def deOf (s : SimState) : ℚ := (eOf s - s.ePrev) / dtDivisor s.p

/-- `const deClamped = Math.max(-DE_CLAMP, Math.min(DE_CLAMP, de))`. -/
def deClampedOf (s : SimState) : ℚ := clampQ (-DE_CLAMP) DE_CLAMP (deOf s)

/-- `const uCmdNoI = kp * e + kd * deClamped`. -/
def uCmdNoIOf (s : SimState) : ℚ := s.p.kp * eOf s + kdOf s.p * deClampedOf s

/-- `const uCmdTentative = uCmdNoI + ki * ei`. -/
def uCmdTentativeOf (s : SimState) : ℚ := uCmdNoIOf s + kiOf s.p * s.ei

/-- The integral accumulator after the conditional-integration branch:
frozen when `uCmdTentative > 1 && e > 0` or `uCmdTentative < -1 && e < 0`,
otherwise `ei + e*dt` run through the two clamping `if`s. -/
def eiNext (s : SimState) : ℚ :=
  if (uCmdTentativeOf s > 1 ∧ eOf s > 0) ∨ (uCmdTentativeOf s < -1 ∧ eOf s < 0) then s.ei
  else
    let ei1 := s.ei + eOf s * s.p.dt
    let ei2 := if ei1 > EI_MAX then EI_MAX else ei1
    if ei2 < -EI_MAX then -EI_MAX else ei2

/-- `uCmd = Math.max(-1, Math.min(1, kp * e + ki * ei + kd * deClamped))`
(with the possibly updated `ei`). -/
def uCmdNext (s : SimState) : ℚ :=
  clampQ (-1) 1 (s.p.kp * eOf s + kiOf s.p * eiNext s + kdOf s.p * deClampedOf s)

/-- `u += ((uCmd - u) / Math.max(tauLag, 1e-6)) * p.dt` followed by the
output clamp `u = Math.max(-1, Math.min(1, u))`. -/
def uNext (s : SimState) : ℚ :=
  clampQ (-1) 1 (s.u + ((uCmdNext s - s.u) / lagDivisor) * s.p.dt)

/-- `const uEff = Math.abs(u) < U_DEADBAND ? 0 : u`. -/
def uEffOf (s : SimState) : ℚ := if qabs (uNext s) < U_DEADBAND then 0 else uNext s

/-- Flywheel branch: `omega += ((K * uEff - b * omega - tauLoad) / J) * p.dt`;
the sled branch leaves `omega` untouched. -/
def omegaNext (s : SimState) : ℚ :=
  if plantOf s.p = .flywheel then
    s.omega + ((s.K * uEffOf s - dragOf s.p * s.omega - loadOf s.p) / inertiaDivisor s.p) * s.p.dt
  else s.omega

/-- Sled branch: `v += ((K * uEff - p.friction * v) / effectiveMass) * p.dt`;
the flywheel branch leaves `v` untouched. -/
def vNext (s : SimState) : ℚ :=
  if plantOf s.p = .flywheel then s.v
  else s.v + ((s.K * uEffOf s - s.p.friction * s.v) / massDivisor s.mass) * s.p.dt

/-- Output update: `y = omega` (flywheel) or `y += v * p.dt` with the updated
velocity (sled). -/
def yNext (s : SimState) : ℚ :=
  if plantOf s.p = .flywheel then omegaNext s else s.y + vNext s * s.p.dt

/-- `t += p.dt`. -/
def tNext (s : SimState) : ℚ := s.t + s.p.dt

/-- Buffer update: `push` then `shift` when `tBuf.length > maxPoints`.
The shift condition in the source tests `tBuf.length` for all four buffers. -/
def capPush (l : List ℚ) (x : ℚ) : List ℚ :=
  if (l ++ [x]).length > maxPoints then (l ++ [x]).tail else l ++ [x]

/-- One call of the worker's `step()`: controller (conditional integration,
command clamp), actuator lag with saturation, deadband, plant update,
`t += p.dt`, `ePrev = e`, then the four buffer pushes with FIFO eviction. -/
def step (s : SimState) : SimState :=
  { s with
    y := yNext s
    v := vNext s
    u := uNext s
    uCmd := uCmdNext s
    t := tNext s
    omega := omegaNext s
    ei := eiNext s
    ePrev := eOf s
    tBuf := if (s.tBuf ++ [tNext s]).length > maxPoints then
        (s.tBuf ++ [tNext s]).tail else s.tBuf ++ [tNext s]
    yBuf := if (s.tBuf ++ [tNext s]).length > maxPoints then
        (s.yBuf ++ [yNext s]).tail else s.yBuf ++ [yNext s]
    uBuf := if (s.tBuf ++ [tNext s]).length > maxPoints then
        (s.uBuf ++ [uEffOf s]).tail else s.uBuf ++ [uEffOf s]
    spBuf := if (s.tBuf ++ [tNext s]).length > maxPoints then
        (s.spBuf ++ [s.p.setpoint]).tail else s.spBuf ++ [s.p.setpoint] }

/-- `step` iterated `n` times. -/
def stepN : ℕ → SimState → SimState
  | 0, s => s
  | n + 1, s => step (stepN n s)

/-- `resetState()`: zeroes `y, v, u, t, omega, ei, ePrev` and empties the four
buffers.  Note that it does not touch `uCmd`, `p`, `running`, `mass` or `K`,
exactly as in the source. -/
def resetState (s : SimState) : SimState :=
  { s with
    y := 0, v := 0, u := 0, t := 0, omega := 0, ei := 0, ePrev := 0,
    tBuf := [], yBuf := [], uBuf := [], spBuf := [] }

/-- The worker's inbound message alphabet.  `randomize` carries the two
freshly sampled hidden constants (the source draws them from `Math.random`). -/
inductive WorkerMsg where
  | start (params : SimParams) (running : Bool)
  | update (params : SimParams) (running : Bool)
  | randomize (newMass newK : ℚ)
  | reset

/-- The worker's `message` event handler (timer re-arming aside, which has no
effect on the simulation state). -/
def handleMessage (s : SimState) (m : WorkerMsg) : SimState :=
  match m with
  | .start params r => resetState { s with p := params, running := r }
  | .update params r => { s with p := params, running := r }
  | .randomize newMass newK => { s with mass := newMass, K := newK }
  | .reset => resetState s

/-- The module-level initial values of the worker (`let p = {...}`, state
variables zero, `mass = 1.0`, `K = 1.0`, empty buffers). -/
def initialParams : SimParams :=
  { dt := 1 / 100, kp := 1, ki := some 0, kd := some 0, setpoint := 1,
    friction := 1 / 2, plant := some .sled, drag := some (2 / 10),
    inertiaJ := some (5 / 100), loadTorque := some 0 }

/-- The worker's state right after module initialisation. -/
def initialState : SimState :=
  { p := initialParams, running := true, y := 0, v := 0, u := 0, uCmd := 0,
    t := 0, omega := 0, ei := 0, ePrev := 0, mass := 1, K := 1,
    tBuf := [], yBuf := [], uBuf := [], spBuf := [] }

/-- The sled parameter set used in the mid-run plant-switch scenario:
`kp = 0`, `setpoint = 0`, `loadTorque = 1`, `inertiaJ = 0.05`. -/
def sledParams : SimParams :=
  { dt := 1 / 100, kp := 0, ki := some 0, kd := some 0, setpoint := 0,
    friction := 1 / 2, plant := some .sled, drag := some (2 / 10),
    inertiaJ := some (1 / 20), loadTorque := some 1 }

/-- `sledParams` with the plant selector switched to `flywheel`. -/
def flyParams : SimParams := { sledParams with plant := some .flywheel }

/-- A small-gain sled parameter set (`kp = 0.01`, `setpoint = 1`) whose first
command lands strictly inside the actuator deadband. -/
def smallGainParams : SimParams :=
  { dt := 1 / 100, kp := 1 / 100, ki := some 0, kd := some 0, setpoint := 1,
    friction := 1 / 2, plant := some .sled, drag := some (2 / 10),
    inertiaJ := some (5 / 100), loadTorque := some 0 }

/-- A sled session started already at its target (`setpoint = 0 = y0`). -/
def restSledParams : SimParams :=
  { dt := 1 / 100, kp := 2, ki := some 1, kd := some 1, setpoint := 0,
    friction := 1 / 2, plant := some .sled, drag := some (2 / 10),
    inertiaJ := some (5 / 100), loadTorque := some 0 }

/-- All state an at-target session keeps at zero, together with the
conditions under which `step` preserves it: `setpoint = 0` and, for the
flywheel, no constant load torque. -/
def restInvariant (s : SimState) : Prop :=
  s.y = 0 ∧ s.v = 0 ∧ s.u = 0 ∧ s.omega = 0 ∧ s.ei = 0 ∧ s.ePrev = 0 ∧
  s.p.setpoint = 0 ∧ (plantOf s.p = .flywheel → loadOf s.p = 0)

instance (s : SimState) : Decidable (restInvariant s) := by
  unfold restInvariant; infer_instance

/-- The timestamps recorded at steps `1, ..., n` (each step records `t`
after the `t += dt` update). -/
def tStamps (s : SimState) (n : ℕ) : List ℚ :=
  (List.range n).map (fun k => (stepN (k + 1) s).t)

/-- The parallel-buffer alignment invariant: the three value buffers have the
same length as the time buffer. -/
def buffersAligned (s : SimState) : Prop :=
  s.yBuf.length = s.tBuf.length ∧ s.uBuf.length = s.tBuf.length ∧
  s.spBuf.length = s.tBuf.length

/- Frame lemmas: `step` never touches the parameters, the run flag or the
hidden constants. -/

theorem qmin_eq_min (a b : ℚ) : qmin a b = min a b := by
  unfold qmin
  rw [min_def]

theorem qmax_eq_max (a b : ℚ) : qmax a b = max a b := by
  unfold qmax
  rw [max_def]

theorem qabs_eq_abs (a : ℚ) : qabs a = |a| := by
  unfold qabs
  split_ifs with h
  · exact (abs_of_neg h).symm
  · exact (abs_of_nonneg (not_lt.mp h)).symm

theorem clampQ_eq (lo hi x : ℚ) : clampQ lo hi x = max lo (min hi x) := by
  unfold clampQ
  rw [qmax_eq_max, qmin_eq_min]

theorem sled_ne_flywheel : (PlantKind.sled = PlantKind.flywheel) = False :=
  eq_false (fun hc => PlantKind.noConfusion hc)

theorem step_p (s : SimState) : (step s).p = s.p := rfl

theorem step_mass (s : SimState) : (step s).mass = s.mass := rfl

theorem step_K (s : SimState) : (step s).K = s.K := rfl

theorem stepN_p (n : ℕ) (s : SimState) : (stepN n s).p = s.p := by
  induction n with
  | zero => rfl
  | succ n ih => rw [stepN, step_p, ih]

theorem step_tBuf_eq (s : SimState) : (step s).tBuf = capPush s.tBuf (tNext s) := rfl

theorem step_t_eq (s : SimState) : (step s).t = s.t + s.p.dt := rfl

theorem stepN_t (n : ℕ) (s : SimState) : (stepN n s).t = s.t + n * s.p.dt := by
  induction n with
  | zero => simp [stepN]
  | succ n ih =>
      rw [stepN, step_t_eq, ih, stepN_p]
      push_cast
      ring

theorem abs_clampQ_le_one (x : ℚ) : |clampQ (-1) 1 x| ≤ 1 := by
  rw [clampQ_eq, abs_le]
  constructor
  · exact le_max_left _ _
  · exact max_le (by norm_num) (min_le_left _ _)

theorem clamp_chain_eq (a : ℚ) :
    (if (if a > EI_MAX then EI_MAX else a) < -EI_MAX then -EI_MAX
     else (if a > EI_MAX then EI_MAX else a)) = clampQ (-EI_MAX) EI_MAX a := by
  rw [clampQ_eq]
  unfold EI_MAX
  rcases le_or_lt a 1000 with h | h
  · rw [if_neg (not_lt.mpr h), min_eq_right h]
    rcases le_or_lt (-1000 : ℚ) a with h2 | h2
    · rw [if_neg (not_lt.mpr h2), max_eq_right h2]
    · rw [if_pos h2, max_eq_left h2.le]
  · rw [if_pos h, if_neg (by norm_num : ¬ (1000 : ℚ) < -1000),
      min_eq_left h.le, max_eq_right (by norm_num : (-1000 : ℚ) ≤ 1000)]

/-- C1: at every step, `ei` is frozen exactly when the tentative command
saturates in the direction of the error, and otherwise accumulates `e*dt`
and is hard-clamped to `[-EI_MAX, EI_MAX]`. -/
theorem antiWindup_conditional_integration (s : SimState) :
    (step s).ei =
      if (uCmdTentativeOf s > 1 ∧ eOf s > 0) ∨ (uCmdTentativeOf s < -1 ∧ eOf s < 0)
      then s.ei
      else clampQ (-EI_MAX) EI_MAX (s.ei + eOf s * s.p.dt) := by
  show eiNext s = _
  unfold eiNext
  split_ifs with h
  · rfl
  · exact clamp_chain_eq _

/-- C2: after every step the clamped controller command and the lagged
actuator output both lie in `[-1, 1]`. -/
theorem command_and_actuator_saturation_bound (s : SimState) :
    |(step s).uCmd| ≤ 1 ∧ |(step s).u| ≤ 1 :=
  ⟨abs_clampQ_le_one _, abs_clampQ_le_one _⟩

/-- C8: every divisor appearing in `step` — the derivative estimate's `dt`,
the actuator lag `tauLag`, the flywheel inertia and the sled mass — is
floored at `1e-6`, hence strictly positive; no division by zero occurs and
`step` is a total function. -/
theorem divisors_floored_at_eps (s : SimState) :
    epsDiv ≤ dtDivisor s.p ∧ 0 < dtDivisor s.p ∧
    epsDiv ≤ lagDivisor ∧ 0 < lagDivisor ∧
    epsDiv ≤ inertiaDivisor s.p ∧ 0 < inertiaDivisor s.p ∧
    epsDiv ≤ massDivisor s.mass ∧ 0 < massDivisor s.mass := by
  simp only [dtDivisor, lagDivisor, inertiaDivisor, massDivisor, qmax_eq_max]
  have heps : (0 : ℚ) < epsDiv := by norm_num [epsDiv]
  exact ⟨le_max_right _ _, lt_of_lt_of_le heps (le_max_right _ _),
    le_max_right _ _, lt_of_lt_of_le heps (le_max_right _ _),
    le_max_right _ _, lt_of_lt_of_le heps (le_max_right _ _),
    le_max_right _ _, lt_of_lt_of_le heps (le_max_right _ _)⟩

theorem length_capPush (l : List ℚ) (x : ℚ) (h : l.length ≤ maxPoints) :
    (capPush l x).length = min (l.length + 1) maxPoints := by
  unfold capPush
  split_ifs with hc
  · rw [List.length_tail, List.length_append]
    simp only [List.length_append, List.length_singleton] at hc
    simp only [List.length_singleton]
    omega
  · simp only [List.length_append, List.length_singleton] at hc ⊢
    omega

theorem foldl_capPush_eq (xs : List ℚ) : ∀ l : List ℚ, l.length ≤ maxPoints →
    xs.foldl capPush l = (l ++ xs).drop (l.length + xs.length - maxPoints) := by
  induction xs with
  | nil =>
      intro l hl
      simp only [List.foldl_nil, List.append_nil, List.length_nil, Nat.add_zero]
      rw [Nat.sub_eq_zero_of_le hl, List.drop_zero]
  | cons x xs ih =>
      intro l hl
      rw [List.foldl_cons]
      by_cases hc : l.length + 1 ≤ maxPoints
      · have hcp : capPush l x = l ++ [x] := by
          unfold capPush
          rw [if_neg]
          simp only [List.length_append, List.length_cons, List.length_nil, gt_iff_lt, not_lt]
          omega
        have hlen : (l ++ [x]).length ≤ maxPoints := by
          simp only [List.length_append, List.length_cons, List.length_nil]
          omega
        rw [hcp, ih (l ++ [x]) hlen]
        have harr : (l ++ [x]) ++ xs = l ++ x :: xs := by simp
        rw [harr]
        have e : (l ++ [x]).length + xs.length - maxPoints
            = l.length + (x :: xs).length - maxPoints := by
          simp only [List.length_append, List.length_cons, List.length_nil]
          omega
        rw [e]
      · have hl2000 : l.length = maxPoints := by omega
        have hpos : 0 < l.length := by
          rw [hl2000]
          norm_num [maxPoints]
        obtain ⟨a, l', rfl⟩ := List.exists_cons_of_ne_nil (List.length_pos.mp hpos)
        simp only [List.length_cons] at hl2000
        have hcp : capPush (a :: l') x = l' ++ [x] := by
          unfold capPush
          rw [if_pos]
          · rfl
          · simp only [List.cons_append, List.length_append, List.length_cons,
              List.length_nil, gt_iff_lt]
            omega
        have hlen : (l' ++ [x]).length ≤ maxPoints := by
          simp only [List.length_append, List.length_cons, List.length_nil]
          omega
        rw [hcp, ih (l' ++ [x]) hlen]
        have harr1 : (l' ++ [x]) ++ xs = l' ++ x :: xs := by simp
        have harr2 : (a :: l') ++ x :: xs = a :: (l' ++ x :: xs) := by simp
        rw [harr1, harr2]
        have e1 : (l' ++ [x]).length = l'.length + 1 := by
          simp only [List.length_append, List.length_cons, List.length_nil]
        have e2 : (a :: l').length = l'.length + 1 := by
          simp only [List.length_cons]
        have e3 : (x :: xs).length = xs.length + 1 := by
          simp only [List.length_cons]
        rw [e1, e2, e3,
          show l'.length + 1 + (xs.length + 1) - maxPoints
              = (l'.length + 1 + xs.length - maxPoints) + 1 from by omega,
          List.drop_succ_cons]

theorem stepN_tBuf_foldl (s : SimState) (n : ℕ) :
    (stepN n s).tBuf = (tStamps s n).foldl capPush s.tBuf := by
  induction n with
  | zero => rfl
  | succ n ih =>
      rw [stepN, step_tBuf_eq, ih]
      unfold tStamps
      rw [List.range_succ, List.map_append, List.map_singleton, List.foldl_append,
        List.foldl_cons, List.foldl_nil]
      rfl

theorem stepN_tBuf_of_empty (s : SimState) (n : ℕ) (h : s.tBuf = []) :
    (stepN n s).tBuf = (tStamps s n).drop (n - maxPoints) := by
  rw [stepN_tBuf_foldl, h, foldl_capPush_eq _ _ (by simp [maxPoints])]
  simp [tStamps]

theorem length_tStamps (s : SimState) (n : ℕ) : (tStamps s n).length = n := by
  simp [tStamps]

theorem stepN_tBuf_length (s : SimState) (n : ℕ) (h : s.tBuf = []) :
    (stepN n s).tBuf.length = min n maxPoints := by
  rw [stepN_tBuf_of_empty s n h, List.length_drop, length_tStamps]
  omega

theorem buffersAligned_step (s : SimState) (h : buffersAligned s) :
    buffersAligned (step s) := by
  obtain ⟨h1, h2, h3⟩ := h
  unfold buffersAligned step
  simp only
  split_ifs with hc
  · simp only [List.length_tail, List.length_append, List.length_singleton]
    omega
  · simp only [List.length_append, List.length_singleton]
    omega

theorem buffersAligned_stepN (s : SimState) (n : ℕ) (h : buffersAligned s) :
    buffersAligned (stepN n s) := by
  induction n with
  | zero => exact h
  | succ n ih => exact buffersAligned_step _ ih

theorem stepN_tBuf_head (s : SimState) (n : ℕ) (h : s.tBuf = [])
    (hn : maxPoints ≤ n) :
    (stepN n s).tBuf.head? = some ((stepN (n - maxPoints + 1) s).t) := by
  have hm : 0 < maxPoints := by norm_num [maxPoints]
  rw [stepN_tBuf_of_empty s n h]
  have hlt : n - maxPoints < (tStamps s n).length := by
    rw [length_tStamps]
    omega
  rw [List.drop_eq_getElem_cons hlt, List.head?_cons]
  congr 1
  unfold tStamps
  rw [List.getElem_map, List.getElem_range]

/-- C3: from a fresh session, after `N` steps all four history buffers have
length `min N 2000`, and once capacity is exceeded the oldest samples have
been evicted first, so the head of the time buffer is the timestamp recorded
at step `N - 2000 + 1`. -/
theorem historyBuffer_length_and_fifo (s : SimState) (n : ℕ)
    (ht : s.tBuf = []) (hy : s.yBuf = []) (hu : s.uBuf = []) (hsp : s.spBuf = []) :
    (stepN n s).tBuf.length = min n maxPoints ∧
    (stepN n s).yBuf.length = min n maxPoints ∧
    (stepN n s).uBuf.length = min n maxPoints ∧
    (stepN n s).spBuf.length = min n maxPoints ∧
    (maxPoints ≤ n →
      (stepN n s).tBuf.head? = some ((stepN (n - maxPoints + 1) s).t)) := by
  have hlen := stepN_tBuf_length s n ht
  have halign : buffersAligned (stepN n s) := by
    refine buffersAligned_stepN s n ?_
    unfold buffersAligned
    rw [ht, hy, hu, hsp]
    exact ⟨rfl, rfl, rfl⟩
  obtain ⟨h1, h2, h3⟩ := halign
  exact ⟨hlen, by rw [h1, hlen], by rw [h2, hlen], by rw [h3, hlen],
    fun hn => stepN_tBuf_head s n ht hn⟩

theorem historyBuffer_length_and_fifo_witness :
    (initialState.tBuf = [] ∧ initialState.yBuf = [] ∧ initialState.uBuf = [] ∧
      initialState.spBuf = []) ∧
    ((stepN 2 initialState).tBuf.length = min 2 maxPoints ∧
     (stepN 2 initialState).yBuf.length = min 2 maxPoints ∧
     (stepN 2 initialState).uBuf.length = min 2 maxPoints ∧
     (stepN 2 initialState).spBuf.length = min 2 maxPoints ∧
     (maxPoints ≤ 2 →
       (stepN 2 initialState).tBuf.head?
         = some ((stepN (2 - maxPoints + 1) initialState).t))) :=
  ⟨⟨rfl, rfl, rfl, rfl⟩, historyBuffer_length_and_fifo initialState 2 rfl rfl rfl rfl⟩

theorem step_spBuf_no_evict (s : SimState) (h : s.tBuf.length + 1 ≤ maxPoints) :
    (step s).spBuf = s.spBuf ++ [s.p.setpoint] := by
  show (if (s.tBuf ++ [tNext s]).length > maxPoints
      then (s.spBuf ++ [s.p.setpoint]).tail
      else s.spBuf ++ [s.p.setpoint]) = s.spBuf ++ [s.p.setpoint]
  rw [if_neg]
  simp only [List.length_append, List.length_cons, List.length_nil, gt_iff_lt, not_lt]
  omega

theorem step_tBuf_len_no_evict (s : SimState) (h : s.tBuf.length + 1 ≤ maxPoints) :
    (step s).tBuf.length = s.tBuf.length + 1 := by
  rw [step_tBuf_eq, length_capPush _ _ (by omega)]
  omega

theorem stepN_spBuf_no_evict (m : ℕ) : ∀ s : SimState,
    s.tBuf.length + m ≤ maxPoints →
    (stepN m s).spBuf = s.spBuf ++ List.replicate m s.p.setpoint ∧
    (stepN m s).tBuf.length = s.tBuf.length + m := by
  induction m with
  | zero =>
      intro s _
      simp [stepN]
  | succ m ih =>
      intro s hsm
      obtain ⟨hsp, hlen⟩ := ih s (by omega)
      have hstep_len : (stepN m s).tBuf.length + 1 ≤ maxPoints := by omega
      constructor
      · rw [stepN, step_spBuf_no_evict _ hstep_len, hsp, stepN_p,
          List.replicate_succ', List.append_assoc]
      · rw [stepN, step_tBuf_len_no_evict _ hstep_len, hlen]
        omega

theorem getLast?_append_tail (l : List ℚ) (x : ℚ) (hl : l ≠ []) :
    ((l ++ [x]).tail).getLast? = some x := by
  obtain ⟨a, l', rfl⟩ := List.exists_cons_of_ne_nil hl
  rw [List.cons_append, List.tail_cons, List.getLast?_concat]

/-- C10: every step appends exactly one sample recording the setpoint in
effect at that step, retained samples are never mutated (a step either
appends, or appends and drops the oldest), `update` messages leave every
buffer untouched, and after `n` steps at one setpoint, a live setpoint
change, and `m` further steps, the recorded `sp` series is the old value
`n` times followed by the new value `m` times. -/
theorem history_append_only (s s2 : SimState) (q : SimParams) (b : Bool)
    (n m : ℕ) (ht : s.tBuf = []) (hsp : s.spBuf = [])
    (halign : s2.spBuf.length = s2.tBuf.length) (hnm : n + m ≤ maxPoints) :
    ((step s2).spBuf = s2.spBuf ++ [s2.p.setpoint] ∨
      (step s2).spBuf = (s2.spBuf ++ [s2.p.setpoint]).tail) ∧
    (step s2).spBuf.getLast? = some s2.p.setpoint ∧
    (handleMessage s2 (.update q b)).tBuf = s2.tBuf ∧
    (handleMessage s2 (.update q b)).yBuf = s2.yBuf ∧
    (handleMessage s2 (.update q b)).uBuf = s2.uBuf ∧
    (handleMessage s2 (.update q b)).spBuf = s2.spBuf ∧
    (stepN m (handleMessage (stepN n s) (.update q b))).spBuf
      = List.replicate n s.p.setpoint ++ List.replicate m q.setpoint := by
  have hstep : (step s2).spBuf = (if (s2.tBuf ++ [tNext s2]).length > maxPoints
      then (s2.spBuf ++ [s2.p.setpoint]).tail
      else s2.spBuf ++ [s2.p.setpoint]) := rfl
  refine ⟨?_, ?_, rfl, rfl, rfl, rfl, ?_⟩
  · rw [hstep]
    split_ifs with hc
    · exact Or.inr rfl
    · exact Or.inl rfl
  · rw [hstep]
    split_ifs with hc
    · refine getLast?_append_tail _ _ ?_
      rw [← List.length_pos, halign]
      simp only [List.length_append, List.length_cons, List.length_nil,
        gt_iff_lt] at hc
      have hm : 0 < maxPoints := by norm_num [maxPoints]
      omega
    · exact List.getLast?_concat _
  · obtain ⟨hA, hB⟩ := stepN_spBuf_no_evict n s (by rw [ht]; simpa using by omega)
    have hupd : (handleMessage (stepN n s) (.update q b)).spBuf
        = (stepN n s).spBuf := rfl
    have hupdT : (handleMessage (stepN n s) (.update q b)).tBuf
        = (stepN n s).tBuf := rfl
    have hupdP : (handleMessage (stepN n s) (.update q b)).p = q := rfl
    obtain ⟨hC, _⟩ := stepN_spBuf_no_evict m (handleMessage (stepN n s) (.update q b))
      (by rw [hupdT, hB, ht]; simpa using hnm)
    rw [hC, hupd, hA, hsp, hupdP, List.nil_append]

/-- C4 counterexample: in a real small-gain run the post-lag actuator output
after one step is `1/800` (inside the deadband), yet the value appended to
the control-output history is `0 = uEff`, not the pre-deadband `u`. -/
theorem uBuf_records_uEff_not_u_cex :
    (step (handleMessage initialState (.start smallGainParams true))).uBuf = [0] ∧
    (step (handleMessage initialState (.start smallGainParams true))).u = 1 / 800 ∧
    ¬ ((0 : ℚ) = 1 / 800) := by
  norm_num [step, handleMessage, resetState, initialState, initialParams,
    smallGainParams, eOf, deOf, deClampedOf, uCmdNoIOf, uCmdTentativeOf, eiNext,
    uCmdNext, uNext, uEffOf, omegaNext, vNext, yNext, tNext, kiOf, kdOf, plantOf,
    dragOf, inertiaOf, loadOf, dtDivisor, lagDivisor, inertiaDivisor, massDivisor,
    clampQ, qmin, qmax, qabs, tauLag, U_DEADBAND, maxPoints, DE_CLAMP, EI_MAX,
    epsDiv, Option.getD]

/-- C4 (amended): `uEff` is zero when the lagged output is inside the
deadband and equals it otherwise; `uEff` both drives the plant update and is
the value appended to the control-output history series (the source pushes
`uEff`, not the pre-deadband `u`). -/
theorem deadband_uEff_drives_plant_and_recorded (s : SimState)
    (halign : s.uBuf.length = s.tBuf.length) :
    uEffOf s = (if |(step s).u| < U_DEADBAND then 0 else (step s).u) ∧
    (step s).uBuf.getLast? = some (uEffOf s) ∧
    (plantOf s.p = .sled →
      (step s).v = s.v
        + ((s.K * uEffOf s - s.p.friction * s.v) / massDivisor s.mass) * s.p.dt) ∧
    (plantOf s.p = .flywheel →
      (step s).omega = s.omega
        + ((s.K * uEffOf s - dragOf s.p * s.omega - loadOf s.p)
            / inertiaDivisor s.p) * s.p.dt) := by
  refine ⟨?_, ?_, ?_, ?_⟩
  · show (if qabs (uNext s) < U_DEADBAND then 0 else uNext s)
        = if |uNext s| < U_DEADBAND then 0 else uNext s
    rw [qabs_eq_abs]
  · have hstep : (step s).uBuf = (if (s.tBuf ++ [tNext s]).length > maxPoints
        then (s.uBuf ++ [uEffOf s]).tail
        else s.uBuf ++ [uEffOf s]) := rfl
    rw [hstep]
    split_ifs with hc
    · refine getLast?_append_tail _ _ ?_
      rw [← List.length_pos, halign]
      simp only [List.length_append, List.length_cons, List.length_nil,
        gt_iff_lt] at hc
      have hm : 0 < maxPoints := by norm_num [maxPoints]
      omega
    · exact List.getLast?_concat _
  · intro hpl
    show vNext s = _
    unfold vNext
    rw [if_neg]
    rw [hpl]
    intro hcontra
    exact PlantKind.noConfusion hcontra
  · intro hpl
    show omegaNext s = _
    unfold omegaNext
    rw [if_pos hpl]

theorem deadband_uEff_drives_plant_and_recorded_witness :
    ((handleMessage initialState (.start smallGainParams true)).uBuf.length
      = (handleMessage initialState (.start smallGainParams true)).tBuf.length) ∧
    (uEffOf (handleMessage initialState (.start smallGainParams true))
        = (if |(step (handleMessage initialState (.start smallGainParams true))).u|
              < U_DEADBAND then 0
           else (step (handleMessage initialState (.start smallGainParams true))).u) ∧
      (step (handleMessage initialState (.start smallGainParams true))).uBuf.getLast?
        = some (uEffOf (handleMessage initialState (.start smallGainParams true))) ∧
      (plantOf (handleMessage initialState (.start smallGainParams true)).p = .sled →
        (step (handleMessage initialState (.start smallGainParams true))).v
          = (handleMessage initialState (.start smallGainParams true)).v
            + (((handleMessage initialState (.start smallGainParams true)).K
                  * uEffOf (handleMessage initialState (.start smallGainParams true))
                - (handleMessage initialState (.start smallGainParams true)).p.friction
                  * (handleMessage initialState (.start smallGainParams true)).v)
                / massDivisor
                  (handleMessage initialState (.start smallGainParams true)).mass)
              * (handleMessage initialState (.start smallGainParams true)).p.dt) ∧
      (plantOf (handleMessage initialState (.start smallGainParams true)).p = .flywheel →
        (step (handleMessage initialState (.start smallGainParams true))).omega
          = (handleMessage initialState (.start smallGainParams true)).omega
            + (((handleMessage initialState (.start smallGainParams true)).K
                  * uEffOf (handleMessage initialState (.start smallGainParams true))
                - dragOf (handleMessage initialState (.start smallGainParams true)).p
                  * (handleMessage initialState (.start smallGainParams true)).omega
                - loadOf (handleMessage initialState (.start smallGainParams true)).p)
                / inertiaDivisor
                  (handleMessage initialState (.start smallGainParams true)).p)
              * (handleMessage initialState (.start smallGainParams true)).p.dt)) :=
  ⟨rfl, deadband_uEff_drives_plant_and_recorded
    (handleMessage initialState (.start smallGainParams true)) rfl⟩

/-- C5 counterexample: the very first recorded timestamp is `dt = 1/100`,
not `0`: the source increments `t` before appending to the buffers. -/
theorem first_timestamp_is_dt_cex :
    (step initialState).tBuf = [1 / 100] ∧
    ¬ ((step initialState).tBuf.head? = some 0) := by
  norm_num [step, initialState, initialParams, tNext, maxPoints]

theorem step_tBuf_getLast (s : SimState) :
    (step s).tBuf.getLast? = some ((step s).t) := by
  rw [step_tBuf_eq]
  unfold capPush
  split_ifs with hc
  · refine getLast?_append_tail _ _ ?_
    rw [← List.length_pos]
    simp only [List.length_append, List.length_cons, List.length_nil,
      gt_iff_lt] at hc
    have hm : 0 < maxPoints := by norm_num [maxPoints]
    omega
  · exact List.getLast?_concat _

/-- C5 (amended): `step()` advances `t` by `dt` *before* the buffer append,
so the sample appended at the `N`-th step after a start or reset carries the
timestamp `N*dt`, and the first recorded timestamp is `dt`, not `0`. -/
theorem timestamp_advances_before_append (s : SimState) (n : ℕ)
    (ht0 : s.t = 0) (htb : s.tBuf = []) :
    (stepN (n + 1) s).tBuf.getLast? = some (((n : ℚ) + 1) * s.p.dt) ∧
    (step s).tBuf = [s.p.dt] := by
  constructor
  · have h1 : stepN (n + 1) s = step (stepN n s) := rfl
    rw [h1, step_tBuf_getLast, ← h1, stepN_t, ht0, zero_add]
    push_cast
    ring_nf
  · rw [step_tBuf_eq, htb]
    unfold capPush
    rw [if_neg (by norm_num [maxPoints])]
    have : tNext s = s.p.dt := by rw [tNext, ht0, zero_add]
    rw [this, List.nil_append]

theorem timestamp_advances_before_append_witness :
    (initialState.t = 0 ∧ initialState.tBuf = []) ∧
    ((stepN (0 + 1) initialState).tBuf.getLast?
        = some ((((0 : ℕ) : ℚ) + 1) * initialState.p.dt)) ∧
    (step initialState).tBuf = [initialState.p.dt] := by
  exact ⟨⟨rfl, rfl⟩, by
    have h := timestamp_advances_before_append initialState 0 rfl rfl
    simpa using h⟩

/-- C6 counterexample: after one step (which sets `uCmd = 1`) a `reset`
leaves `uCmd` at `1`, not `0` — `resetState()` never touches `uCmd`. -/
theorem reset_leaves_uCmd_cex :
    (handleMessage (step initialState) .reset).uCmd = 1 ∧ ¬ ((1 : ℚ) = 0) := by
  norm_num [step, handleMessage, resetState, initialState, initialParams,
    eOf, deOf, deClampedOf, uCmdNoIOf, uCmdTentativeOf, eiNext,
    uCmdNext, kiOf, kdOf, dtDivisor, clampQ, qmin, qmax, tauLag,
    DE_CLAMP, EI_MAX, epsDiv, Option.getD]

/-- C6 (amended): `reset` zeroes `y, v, omega`, the lagged output `u`, the
time `t`, the controller state `ei, ePrev` and empties all four buffers,
and leaves the parameters, hidden constants `mass`/`K` and the run flag
unchanged — but it does *not* reset the last unlagged command `uCmd`, which
keeps its pre-reset value. -/
theorem reset_zeroes_dynamic_state_except_uCmd (s : SimState) :
    (handleMessage s .reset).y = 0 ∧
    (handleMessage s .reset).v = 0 ∧
    (handleMessage s .reset).u = 0 ∧
    (handleMessage s .reset).t = 0 ∧
    (handleMessage s .reset).omega = 0 ∧
    (handleMessage s .reset).ei = 0 ∧
    (handleMessage s .reset).ePrev = 0 ∧
    (handleMessage s .reset).tBuf = [] ∧
    (handleMessage s .reset).yBuf = [] ∧
    (handleMessage s .reset).uBuf = [] ∧
    (handleMessage s .reset).spBuf = [] ∧
    (handleMessage s .reset).p = s.p ∧
    (handleMessage s .reset).mass = s.mass ∧
    (handleMessage s .reset).K = s.K ∧
    (handleMessage s .reset).running = s.running ∧
    (handleMessage s .reset).uCmd = s.uCmd :=
  ⟨rfl, rfl, rfl, rfl, rfl, rfl, rfl, rfl, rfl, rfl, rfl, rfl, rfl, rfl, rfl, rfl⟩

/-- C7 counterexample: a session started with the sled plant, stepped once,
then sent an `update` whose parameters select the flywheel (with no reset in
between), advances with flywheel dynamics on the next step: the constant
load torque drives `omega` (and `y`) to `-1/5`, which sled dynamics (which
never touch `omega`) cannot do. -/
theorem plant_switch_mid_run_cex :
    (step (handleMessage initialState (.start sledParams true))).y = 0 ∧
    (step (handleMessage initialState (.start sledParams true))).omega = 0 ∧
    (step (handleMessage (step (handleMessage initialState (.start sledParams true)))
        (.update flyParams true))).omega = -(1 / 5) ∧
    (step (handleMessage (step (handleMessage initialState (.start sledParams true)))
        (.update flyParams true))).y = -(1 / 5) ∧
    ¬ ((-(1 / 5) : ℚ) = 0) := by
  norm_num [step, handleMessage, resetState, initialState, initialParams,
    sledParams, flyParams, eOf, deOf, deClampedOf, uCmdNoIOf, uCmdTentativeOf,
    eiNext, uCmdNext, uNext, uEffOf, omegaNext, vNext, yNext, tNext, kiOf, kdOf,
    plantOf, dragOf, inertiaOf, loadOf, dtDivisor, lagDivisor, inertiaDivisor,
    massDivisor, clampQ, qmin, qmax, qabs, tauLag, U_DEADBAND, maxPoints,
    DE_CLAMP, EI_MAX, epsDiv, Option.getD, sled_ne_flywheel]

/-- C7 (amended): `step()` dispatches the plant dynamics on the plant
selector of the *current* parameters, and an `update` message adopts new
parameters in place without resetting any dynamic state — so an update with
a different plant selector switches the dynamics applied from the next step
on, with no reset required. -/
theorem plant_dispatch_follows_current_params (s : SimState) (q : SimParams)
    (b : Bool) :
    (handleMessage s (.update q b)).p = q ∧
    (handleMessage s (.update q b)).y = s.y ∧
    (handleMessage s (.update q b)).v = s.v ∧
    (handleMessage s (.update q b)).omega = s.omega ∧
    (handleMessage s (.update q b)).ei = s.ei ∧
    (handleMessage s (.update q b)).t = s.t ∧
    (plantOf s.p = .sled → (step s).omega = s.omega) ∧
    (plantOf s.p = .flywheel → (step s).v = s.v ∧ (step s).y = (step s).omega) := by
  refine ⟨rfl, rfl, rfl, rfl, rfl, rfl, ?_, ?_⟩
  · intro h
    show omegaNext s = s.omega
    unfold omegaNext
    rw [if_neg]
    rw [h]
    intro hc
    exact PlantKind.noConfusion hc
  · intro h
    constructor
    · show vNext s = s.v
      unfold vNext
      rw [if_pos h]
    · show yNext s = omegaNext s
      unfold yNext
      rw [if_pos h]

theorem plant_dispatch_follows_current_params_witness :
    (handleMessage initialState (.update flyParams true)).p = flyParams ∧
    (handleMessage initialState (.update flyParams true)).y = initialState.y ∧
    (handleMessage initialState (.update flyParams true)).v = initialState.v ∧
    (handleMessage initialState (.update flyParams true)).omega = initialState.omega ∧
    (handleMessage initialState (.update flyParams true)).ei = initialState.ei ∧
    (handleMessage initialState (.update flyParams true)).t = initialState.t ∧
    (plantOf initialState.p = .sled →
      (step initialState).omega = initialState.omega) ∧
    (plantOf initialState.p = .flywheel →
      (step initialState).v = initialState.v ∧
      (step initialState).y = (step initialState).omega) :=
  plant_dispatch_follows_current_params initialState flyParams true

/-- C9 counterexample: for the flywheel plant with a nonzero constant load
torque, a session started already at its target (`setpoint = y0 = 0`, zero
initial speed) drifts away immediately: after one step `y = -1/5`, far
outside the `1e-9` tolerance. -/
theorem flywheel_load_drift_cex :
    (step (handleMessage initialState (.start flyParams true))).y = -(1 / 5) ∧
    ¬ (|(step (handleMessage initialState (.start flyParams true))).y - 0|
        ≤ 1 / 1000000000) := by
  have h1 : (step (handleMessage initialState (.start flyParams true))).y
      = -(1 / 5) := by
    norm_num [step, handleMessage, resetState, initialState, initialParams,
      flyParams, sledParams, eOf, deOf, deClampedOf, uCmdNoIOf, uCmdTentativeOf,
      eiNext, uCmdNext, uNext, uEffOf, omegaNext, vNext, yNext, tNext, kiOf, kdOf,
      plantOf, dragOf, inertiaOf, loadOf, dtDivisor, lagDivisor, inertiaDivisor,
      massDivisor, clampQ, qmin, qmax, qabs, tauLag, U_DEADBAND, maxPoints,
      DE_CLAMP, EI_MAX, epsDiv, Option.getD]
  refine ⟨h1, ?_⟩
  rw [h1, sub_zero, abs_of_nonpos (by norm_num)]
  norm_num

theorem restInvariant_step (s : SimState) (h : restInvariant s) :
    restInvariant (step s) := by
  obtain ⟨hy, hv, hu, hom, hei, hep, hsp, hload⟩ := h
  have he : eOf s = 0 := by rw [eOf, hsp, hy, sub_zero]
  have hde : deOf s = 0 := by rw [deOf, he, hep, sub_zero, zero_div]
  have hdec : deClampedOf s = 0 := by
    rw [deClampedOf, hde, clampQ_eq]
    norm_num [DE_CLAMP]
  have htent : uCmdTentativeOf s = 0 := by
    rw [uCmdTentativeOf, uCmdNoIOf, he, hdec, hei]
    ring
  have hcond : ¬ ((uCmdTentativeOf s > 1 ∧ eOf s > 0) ∨
      (uCmdTentativeOf s < -1 ∧ eOf s < 0)) := by
    rw [htent, he]
    norm_num
  have heinext : eiNext s = 0 := by
    unfold eiNext
    rw [if_neg hcond]
    simp only [he, hei, zero_mul, add_zero, zero_add]
    norm_num [EI_MAX]
  have hucmd : uCmdNext s = 0 := by
    unfold uCmdNext
    rw [he, heinext, hdec, show s.p.kp * 0 + kiOf s.p * 0 + kdOf s.p * 0 = 0
      from by ring, clampQ_eq]
    norm_num
  have hunext : uNext s = 0 := by
    unfold uNext
    rw [hucmd, hu]
    simp only [sub_self, zero_div, zero_mul, add_zero]
    rw [clampQ_eq]
    norm_num
  have hueff : uEffOf s = 0 := by
    unfold uEffOf
    rw [hunext, if_pos (by norm_num [qabs, U_DEADBAND])]
  have homnext : omegaNext s = 0 := by
    unfold omegaNext
    split_ifs with hpl
    · rw [hueff, hom, hload hpl]
      simp
    · exact hom
  have hvnext : vNext s = 0 := by
    unfold vNext
    split_ifs with hpl
    · exact hv
    · rw [hueff, hv]
      simp
  have hynext : yNext s = 0 := by
    unfold yNext
    split_ifs with hpl
    · exact homnext
    · rw [hy, hvnext, zero_mul, add_zero]
  exact ⟨hynext, hvnext, hunext, homnext, heinext, he, hsp, hload⟩

/-- C9 (amended): a session started already at its target (`setpoint` equal
to the initial output `y0 = 0`, zero initial velocity/speed) shows no drift:
`y` stays exactly `0` (so in particular within `1e-9`) for every step, for
the sled plant with any parameters — and for the flywheel only provided its
constant load torque is zero; a nonzero `loadTorque` produces immediate
drift. -/
theorem rest_invariant_no_drift (s : SimState) (n : ℕ) (h : restInvariant s) :
    (stepN n s).y = 0 := by
  have hinv : restInvariant (stepN n s) := by
    induction n with
    | zero => exact h
    | succ n ih => exact restInvariant_step _ ih
  exact hinv.1

theorem rest_invariant_no_drift_witness :
    restInvariant (handleMessage initialState (.start restSledParams true)) ∧
    (stepN 3 (handleMessage initialState (.start restSledParams true))).y = 0 :=
  ⟨by norm_num [restInvariant, handleMessage, resetState, initialState,
      restSledParams, plantOf, loadOf, Option.getD],
   rest_invariant_no_drift _ 3 (by norm_num [restInvariant, handleMessage,
      resetState, initialState, restSledParams, plantOf, loadOf, Option.getD])⟩

theorem history_append_only_witness :
    (initialState.tBuf = [] ∧ initialState.spBuf = [] ∧
      initialState.spBuf.length = initialState.tBuf.length ∧
      3 + 2 ≤ maxPoints) ∧
    (((step initialState).spBuf
        = initialState.spBuf ++ [initialState.p.setpoint] ∨
      (step initialState).spBuf
        = (initialState.spBuf ++ [initialState.p.setpoint]).tail) ∧
    (step initialState).spBuf.getLast? = some initialState.p.setpoint ∧
    (handleMessage initialState (.update flyParams true)).tBuf = initialState.tBuf ∧
    (handleMessage initialState (.update flyParams true)).yBuf = initialState.yBuf ∧
    (handleMessage initialState (.update flyParams true)).uBuf = initialState.uBuf ∧
    (handleMessage initialState (.update flyParams true)).spBuf = initialState.spBuf ∧
    (stepN 2 (handleMessage (stepN 3 initialState) (.update flyParams true))).spBuf
      = List.replicate 3 initialState.p.setpoint
        ++ List.replicate 2 flyParams.setpoint) :=
  ⟨⟨rfl, rfl, rfl, by norm_num [maxPoints]⟩,
    history_append_only initialState initialState flyParams true 3 2 rfl rfl rfl
      (by norm_num [maxPoints])⟩

end SimWorker
